import Mathlib

/-!
A shallow embedding of the GitHub user activity CLI (`main.go`).

Modeling conventions:
* Go strings are modeled as Lean `String` (sequences of characters); the
  program only ever handles ASCII event tags, repository names and header
  values, where Go's byte-level slicing and Unicode case mapping coincide
  with the character-level model used here.
* A raw JSON payload (`json.RawMessage`) is modeled as `Option Json`:
  `none` stands for an absent or syntactically invalid payload (for which
  `json.Unmarshal` fails), `some j` for a payload that parses to the JSON
  value `j`.  `json.Unmarshal` of a parsed value into a Go struct is
  modeled field by field: an absent or `null` field keeps the zero value,
  a field of the wrong JSON kind is a decode error, unknown fields are
  ignored, and a duplicated key keeps its last occurrence.
* The local-time rendering of a reset timestamp (`ts.Local().Format(RFC1123)`)
  depends on the process environment, so it is threaded through the model
  as an explicit function argument `fmtLocal : Int → String`.
-/

namespace GhActivity

/-- JSON values, as decoded by `encoding/json`; numbers are restricted to
integers since every numeric field of the program's payload structs is a
Go `int`. -/
inductive Json where
  | null : Json
  | bool (b : Bool) : Json
  | num (n : Int) : Json
  | str (s : String) : Json
  | arr (xs : List Json) : Json
  | obj (fields : List (String × Json)) : Json
deriving Repr

/-- `Event` from `main.go`: the outer envelope of one feed entry.
`created_at` is never consulted by the program and is omitted. -/
structure Event where
  type : String
  repoName : String
  payload : Option Json
deriving Repr

/-- `PushPayload` from `main.go`. -/
structure PushPayload where
  size : Int
deriving Repr, DecidableEq

/-- The shared shape of the nested `issue` / `pull_request` objects. -/
structure NumTitle where
  number : Int
  title : String
deriving Repr, DecidableEq

/-- `IssuesPayload` from `main.go`. -/
structure IssuesPayload where
  action : String
  issue : NumTitle
deriving Repr, DecidableEq

/-- `PRPayload` from `main.go`. -/
structure PRPayload where
  action : String
  pullRequest : NumTitle
deriving Repr, DecidableEq

/-- `WatchPayload` from `main.go`. -/
structure WatchPayload where
  action : String
deriving Repr, DecidableEq

/-- `ForkPayload` from `main.go` (the `forkee.full_name` field). -/
structure ForkPayload where
  forkeeFullName : String
deriving Repr, DecidableEq

/-- Object field lookup as `encoding/json` performs it: when a key occurs
several times the later occurrence overwrites the earlier one. -/
def jLookup (fields : List (String × Json)) (key : String) : Option Json :=
  ((fields.filter (fun kv => kv.fst == key)).map (fun kv => kv.snd)).getLast?

/-- Unmarshal one `int` struct field: absent or `null` keeps the zero
value, a number is taken, any other JSON kind is a decode error. -/
def decodeIntField (fields : List (String × Json)) (key : String) : Option Int :=
  match jLookup fields key with
  | none => some 0
  | some Json.null => some 0
  | some (Json.num n) => some n
  | some _ => none

/-- Unmarshal one `string` struct field, analogous to `decodeIntField`. -/
def decodeStrField (fields : List (String × Json)) (key : String) : Option String :=
  match jLookup fields key with
  | none => some ""
  | some Json.null => some ""
  | some (Json.str s) => some s
  | some _ => none

/-- Unmarshal a nested `{number, title}` object field. -/
def decodeNumTitleField (fields : List (String × Json)) (key : String) : Option NumTitle :=
  match jLookup fields key with
  | none => some { number := 0, title := "" }
  | some Json.null => some { number := 0, title := "" }
  | some (Json.obj fs) =>
    match decodeIntField fs "number", decodeStrField fs "title" with
    | some n, some t => some { number := n, title := t }
    | _, _ => none
  | some _ => none

/-- `json.Unmarshal(ev.Payload, &PushPayload{})`. -/
def decodePush (p : Option Json) : Option PushPayload :=
  match p with
  | none => none
  | some Json.null => some { size := 0 }
  | some (Json.obj fs) => (decodeIntField fs "size").map (fun n => { size := n })
  | some _ => none

/-- `json.Unmarshal(ev.Payload, &IssuesPayload{})`. -/
def decodeIssues (p : Option Json) : Option IssuesPayload :=
  match p with
  | none => none
  | some Json.null => some { action := "", issue := { number := 0, title := "" } }
  | some (Json.obj fs) =>
    match decodeStrField fs "action", decodeNumTitleField fs "issue" with
    | some a, some i => some { action := a, issue := i }
    | _, _ => none
  | some _ => none

/-- `json.Unmarshal(ev.Payload, &PRPayload{})`. -/
def decodePR (p : Option Json) : Option PRPayload :=
  match p with
  | none => none
  | some Json.null => some { action := "", pullRequest := { number := 0, title := "" } }
  | some (Json.obj fs) =>
    match decodeStrField fs "action", decodeNumTitleField fs "pull_request" with
    | some a, some pr => some { action := a, pullRequest := pr }
    | _, _ => none
  | some _ => none

/-- `json.Unmarshal(ev.Payload, &WatchPayload{})`. -/
def decodeWatch (p : Option Json) : Option WatchPayload :=
  match p with
  | none => none
  | some Json.null => some { action := "" }
  | some (Json.obj fs) => (decodeStrField fs "action").map (fun a => { action := a })
  | some _ => none

/-- Unmarshal the nested `forkee.full_name` object. -/
def decodeForkee (fields : List (String × Json)) : Option String :=
  match jLookup fields "forkee" with
  | none => some ""
  | some Json.null => some ""
  | some (Json.obj fs) => decodeStrField fs "full_name"
  | some _ => none

/-- `json.Unmarshal(ev.Payload, &ForkPayload{})`. -/
def decodeFork (p : Option Json) : Option ForkPayload :=
  match p with
  | none => none
  | some Json.null => some { forkeeFullName := "" }
  | some (Json.obj fs) => (decodeForkee fs).map (fun f => { forkeeFullName := f })
  | some _ => none

/-- `strings.ToLower`, on the ASCII fragment the program handles. -/
def goToLower (s : String) : String :=
  String.mk (s.data.map Char.toLower)

/-- `titleCase` from `main.go`: the empty string is returned unchanged,
otherwise the first character is uppercased and the rest lowercased. -/
def titleCase (s : String) : String :=
  match s.data with
  | [] => s
  | c :: rest => String.mk (Char.toUpper c :: rest.map Char.toLower)

/-- `formatEvent` from `main.go`: dispatch on the event tag, decode the
payload variant the tag requires, and render one display line; returns
`("", false)` when the tag is unsupported or its payload fails to decode. -/
def formatEvent (ev : Event) : String × Bool :=
  let repo := ev.repoName
  match ev.type with
  | "PushEvent" =>
    match decodePush ev.payload with
    | none => ("", false)
    | some p => ("Pushed " ++ toString p.size ++ " commit(s) to " ++ repo, true)
  | "IssuesEvent" =>
    match decodeIssues ev.payload with
    | none => ("", false)
    | some p =>
      let action := goToLower p.action
      (titleCase action ++ " an issue #" ++ toString p.issue.number ++ " “" ++
        p.issue.title ++ "” in " ++ repo, true)
  | "PullRequestEvent" =>
    match decodePR ev.payload with
    | none => ("", false)
    | some p =>
      let action := goToLower p.action
      (titleCase action ++ " a pull request #" ++ toString p.pullRequest.number ++ " “" ++
        p.pullRequest.title ++ "” in " ++ repo, true)
  | "WatchEvent" =>
    match decodeWatch ev.payload with
    | none => ("", false)
    | some p =>
      if goToLower p.action == "started" then ("Starred " ++ repo, true)
      else ("Watch event on " ++ repo, true)
  | "ForkEvent" =>
    match decodeFork ev.payload with
    | none => ("", false)
    | some p =>
      let target := if p.forkeeFullName != "" then p.forkeeFullName else repo
      ("Forked " ++ ev.repoName ++ " → " ++ target, true)
  | "CreateEvent" => ("Created something in " ++ repo, true)
  | "DeleteEvent" => ("Deleted something in " ++ repo, true)
  | "ReleaseEvent" => ("Published or edited a release in " ++ repo, true)
  | "PullRequestReviewCommentEvent" => ("Commented on a PR review in " ++ repo, true)
  | "IssueCommentEvent" => ("Commented on an issue in " ++ repo, true)
  | _ => ("", false)

/-- The clamping of the `--n` flag in `main`: values below 1 become 1,
values above 100 become 100 (the flag's default is 30, which the clamp
leaves unchanged). -/
def clampLimit (n : Int) : Nat :=
  if n < 1 then 1
  else if n > 100 then 100
  else n.toNat

/-- The selection-and-rendering loop of `main`, carrying the running
`count` of printed lines: an event is skipped when a non-empty filter
does not match its tag or when `formatEvent` rejects it; after a line is
printed the loop stops as soon as the count reaches the limit. -/
def selectLoop (filter : String) (limit : Nat) : Nat → List Event → List String
  | _, [] => []
  | count, ev :: rest =>
    if filter ≠ "" ∧ ev.type ≠ filter then selectLoop filter limit count rest
    else
      match formatEvent ev with
      | (_, false) => selectLoop filter limit count rest
      | (line, true) =>
        if count + 1 ≥ limit then [line]
        else line :: selectLoop filter limit (count + 1) rest

/-- The lines printed by `main`'s loop for a decoded event sequence, a
filter (`""` meaning unfiltered) and the raw `--n` value. -/
def printedLines (filter : String) (n : Int) (events : List Event) : List String :=
  selectLoop filter (clampLimit n) 0 events

/-- An event passes the loop's two gates: its tag matches a non-empty
filter (or the filter is empty) and `formatEvent` accepts it. -/
def passes (filter : String) (ev : Event) : Bool :=
  (filter == "" || ev.type == filter) && (formatEvent ev).snd

/-- Go's `%q` on the plain event-type names the filter takes: the string
wrapped in ASCII double quotes (no characters needing escapes occur). -/
def goQuote (s : String) : String :=
  "\"" ++ s ++ "\""

/-- The post-fetch portion of `main`: the printed output lines paired
with the process exit code.  An empty decoded sequence short-circuits
before the loop; otherwise the loop runs and, when nothing was printed,
a filter-specific or generic informational message is emitted.  All of
these paths exit 0. -/
def runMain (filter : String) (n : Int) (events : List Event) : List String × Nat :=
  if events.length = 0 then (["No recent public activity."], 0)
  else
    let lines := selectLoop filter (clampLimit n) 0 events
    if lines.length = 0 then
      if filter ≠ "" then (["No events of type " ++ goQuote filter ++ " found."], 0)
      else (["No printable events found."], 0)
    else (lines.map (fun l => "- " ++ l), 0)

/-- An HTTP response as `fetchEvents` observes it after the round trip:
numeric status code, status line text, response headers and body.  The
body is modeled as a character sequence; the bodies the program handles
are ASCII, where characters and bytes coincide. -/
structure HttpResponse where
  statusCode : Nat
  status : String
  headers : List (String × String)
  body : String
deriving Repr

/-- `resp.Header.Get(key)`: the first value stored under the key, or the
empty string when the header is absent. -/
def headerGet (headers : List (String × String)) (key : String) : String :=
  match headers.find? (fun kv => kv.fst == key) with
  | some kv => kv.snd
  | none => ""

/-- One base-10 digit run, as `strconv.ParseInt` consumes it: at least
one ASCII digit and nothing else. -/
def parseDigits : List Char → Option Nat
  | [] => none
  | cs => cs.foldl
      (fun acc c => match acc with
        | none => none
        | some n => if c.isDigit then some (n * 10 + (c.toNat - 48)) else none)
      (some 0)

/-- `parseUnix` from `main.go`, i.e. `strconv.ParseInt(s, 10, 64)`: an
optional sign followed by at least one decimal digit, rejected when the
value overflows a signed 64-bit integer; `none` models the error return
(for which the Go caller receives the zero `time.Time`). -/
def parseUnix (s : String) : Option Int :=
  match s.data with
  | [] => none
  | c :: rest =>
    let signDigits : Bool × List Char :=
      if c = '-' then (true, rest)
      else if c = '+' then (false, rest)
      else (false, c :: rest)
    match parseDigits signDigits.snd with
    | none => none
    | some n =>
      let v : Int := if signDigits.fst then -(n : Int) else (n : Int)
      if v < -(2 ^ 63) ∨ v > 2 ^ 63 - 1 then none else some v

/-- The Unix-seconds value whose `time.Unix(sec, 0)` is Go's zero
`time.Time` (midnight UTC, January 1 of year 1): `time.Unix` adds
62135596800 to reach the internal epoch, so this is its negation.  For
exactly this reset value `!ts.IsZero()` fails and the rate-limit message
carries no annotation. -/
def zeroTimeUnixSec : Int := -62135596800

/-- The constant part of the rate-limit failure message in `fetchEvents`. -/
def rateLimitBase : String := "rate limit exceeded; set GITHUB_TOKEN to increase limits"

/-- Go's `unicode.IsSpace`, the character class `strings.TrimSpace`
trims: the White_Space Unicode property. -/
def goIsSpace (c : Char) : Bool :=
  (9 ≤ c.toNat ∧ c.toNat ≤ 13) || c = ' ' || c = Char.ofNat 0x85 || c = Char.ofNat 0xA0 ||
    c = Char.ofNat 0x1680 || (0x2000 ≤ c.toNat ∧ c.toNat ≤ 0x200A) ||
    c = Char.ofNat 0x2028 || c = Char.ofNat 0x2029 || c = Char.ofNat 0x202F ||
    c = Char.ofNat 0x205F || c = Char.ofNat 0x3000

/-- `strings.TrimSpace`: drop White_Space characters from both ends. -/
def goTrimSpace (s : String) : String :=
  String.mk (((s.data.dropWhile goIsSpace).reverse.dropWhile goIsSpace).reverse)

/-- The first `n` characters of the body, modeling
`io.ReadAll(io.LimitReader(resp.Body, n))` on an ASCII body. -/
def bodyTake (n : Nat) (s : String) : String :=
  String.mk (s.data.take n)

/-- Outcome of classifying one HTTP response in `fetchEvents`: either a
failure with the error message the function returns, or fall-through to
the JSON decoding of a 2xx body. -/
inductive ClassifyResult where
  | fail (msg : String) : ClassifyResult
  | proceed : ClassifyResult
deriving Repr, DecidableEq

/-- The response-classification portion of `fetchEvents`, checked in
source order: 404, then 403 with an exhausted quota header (annotating
the message with the reset time when the header parses and the parsed
instant is not the zero time), then any other non-2xx with the status
line and the trimmed 512-byte body prefix.  `fmtLocal` stands for the
environment-dependent `ts.Local().Format(time.RFC1123)` rendering. -/
def classifyResponse (fmtLocal : Int → String) (resp : HttpResponse) : ClassifyResult :=
  if resp.statusCode = 404 then ClassifyResult.fail "user not found"
  else if resp.statusCode = 403 ∧ headerGet resp.headers "X-RateLimit-Remaining" = "0" then
    let reset := headerGet resp.headers "X-RateLimit-Reset"
    let msg :=
      if reset ≠ "" then
        match parseUnix reset with
        | some ts =>
          if ts ≠ zeroTimeUnixSec then
            rateLimitBase ++ " (resets at " ++ fmtLocal ts ++ ")"
          else rateLimitBase
        | none => rateLimitBase
      else rateLimitBase
    ClassifyResult.fail msg
  else if resp.statusCode < 200 ∨ resp.statusCode ≥ 300 then
    ClassifyResult.fail ("github api error: " ++ resp.status ++ ": " ++
      goTrimSpace (bodyTake 512 resp.body))
  else ClassifyResult.proceed

/-- The loop started with `count` printed lines and `count < limit`
prints exactly the first `limit - count` formatted lines of the events
that pass both gates, in order. -/
theorem selectLoop_eq_take (filter : String) (limit : Nat) :
    ∀ (evs : List Event) (count : Nat), count < limit →
      selectLoop filter limit count evs =
        ((evs.filter (passes filter)).map (fun ev => (formatEvent ev).fst)).take (limit - count)
  | [], _, _ => by simp [selectLoop]
  | ev :: rest, count, h => by
    by_cases hf : filter ≠ "" ∧ ev.type ≠ filter
    · have h1 : (filter == "") = false := beq_eq_false_iff_ne.mpr hf.1
      have h2 : (ev.type == filter) = false := beq_eq_false_iff_ne.mpr hf.2
      have hp : passes filter ev = false := by simp [passes, h1, h2]
      simp only [selectLoop, if_pos hf, List.filter_cons, hp, if_neg Bool.false_ne_true]
      exact selectLoop_eq_take filter limit rest count h
    · have hgate : ((filter == "") || (ev.type == filter)) = true := by
        rcases Decidable.not_and_iff_or_not.mp hf with h' | h'
        · simp only [ne_eq, Decidable.not_not] at h'
          simp [h']
        · simp only [ne_eq, Decidable.not_not] at h'
          simp [h']
      rcases hfe : formatEvent ev with ⟨line, ok⟩
      cases ok with
      | false =>
        have hp : passes filter ev = false := by simp [passes, hfe]
        simp only [selectLoop, if_neg hf, hfe, List.filter_cons, hp,
          if_neg Bool.false_ne_true]
        exact selectLoop_eq_take filter limit rest count h
      | true =>
        have hp : passes filter ev = true := by simp [passes, hfe, hgate]
        obtain ⟨k, hk⟩ : ∃ k, limit - count = k + 1 := ⟨limit - count - 1, by omega⟩
        by_cases hstop : count + 1 ≥ limit
        · have hk0 : k = 0 := by omega
          simp only [selectLoop, if_neg hf, hfe, if_pos hstop, List.filter_cons, hp,
            if_true, ite_true, List.map_cons, hk, hk0, List.take_succ_cons, List.take_zero]
        · have hrec := selectLoop_eq_take filter limit rest (count + 1) (by omega)
          have hk' : limit - (count + 1) = k := by omega
          simp only [selectLoop, if_neg hf, hfe, if_neg hstop, List.filter_cons, hp,
            if_true, ite_true, List.map_cons, hk, List.take_succ_cons, hrec, hk']

/-- The clamped limit always lands in `[1, 100]` and fixes the default 30. -/
theorem clampLimit_mem (n : Int) : 1 ≤ clampLimit n ∧ clampLimit n ≤ 100 := by
  unfold clampLimit
  split
  · omega
  · split <;> omega

/-- C1: for every decoded event sequence, filter value and user-supplied
limit `n`, the number of lines printed by the selection loop is at most
`n` clamped to `[1, 100]` (the default 30 clamps to itself) and at most
the number of events whose tag matches the filter and which
`formatEvent` accepts. -/
theorem printedLines_length_le (filter : String) (n : Int) (evs : List Event) :
    (printedLines filter n evs).length ≤ clampLimit n ∧
    (printedLines filter n evs).length ≤ (evs.filter (passes filter)).length ∧
    1 ≤ clampLimit n ∧ clampLimit n ≤ 100 ∧ clampLimit 30 = 30 := by
  have h1 := (clampLimit_mem n).1
  have h2 := (clampLimit_mem n).2
  have heq := selectLoop_eq_take filter (clampLimit n) evs 0 (by omega)
  rw [printedLines, heq, Nat.sub_zero]
  refine ⟨List.length_take_le _ _, ?_, h1, h2, by decide⟩
  calc (((evs.filter (passes filter)).map (fun ev => (formatEvent ev).fst)).take
          (clampLimit n)).length
      ≤ ((evs.filter (passes filter)).map (fun ev => (formatEvent ev).fst)).length :=
        List.length_take_le' _ _
    _ = (evs.filter (passes filter)).length := List.length_map _ _

/-- C4: the printed lines are the image under `formatEvent` of a
subsequence of the input events taken in their original order —
filtering by tag and truncation at the limit never reorder events. -/
theorem printedLines_subsequence (filter : String) (n : Int) (evs : List Event) :
    ∃ sub : List Event, sub.Sublist evs ∧
      printedLines filter n evs = sub.map (fun ev => (formatEvent ev).fst) := by
  refine ⟨(evs.filter (passes filter)).take (clampLimit n), ?_, ?_⟩
  · exact (List.take_sublist _ _).trans (List.filter_sublist _)
  · have heq := selectLoop_eq_take filter (clampLimit n) evs 0
      (by have := (clampLimit_mem n).1; omega)
    rw [printedLines, heq, Nat.sub_zero, List.map_take]

/-- Dropping a prefix of elements never lengthens a list. -/
theorem length_dropWhile_le (p : Char → Bool) (l : List Char) :
    (l.dropWhile p).length ≤ l.length :=
  (List.dropWhile_sublist p).length_le

/-- Trimming the truncated body keeps it within the truncation bound. -/
theorem goTrimSpace_bodyTake_le (n : Nat) (s : String) :
    (goTrimSpace (bodyTake n s)).length ≤ n := by
  have h1 : (goTrimSpace (bodyTake n s)).length =
      (((((bodyTake n s).data.dropWhile goIsSpace).reverse).dropWhile goIsSpace).reverse).length :=
    rfl
  rw [h1, List.length_reverse]
  calc ((((bodyTake n s).data.dropWhile goIsSpace).reverse).dropWhile goIsSpace).length
      ≤ (((bodyTake n s).data.dropWhile goIsSpace).reverse).length :=
        length_dropWhile_le _ _
    _ = ((bodyTake n s).data.dropWhile goIsSpace).length := List.length_reverse _
    _ ≤ (bodyTake n s).data.length := length_dropWhile_le _ _
    _ = (s.data.take n).length := rfl
    _ ≤ n := List.length_take_le _ _

/-- C3: a non-2xx response that is neither a 404 nor a 403 with an
exhausted quota header makes `fetchEvents` fail with the status text and
the response body truncated to at most 512 bytes and trimmed of
surrounding whitespace. -/
theorem classify_generic_api_error (fmtLocal : Int → String) (resp : HttpResponse)
    (hnon2xx : resp.statusCode < 200 ∨ resp.statusCode ≥ 300)
    (h404 : resp.statusCode ≠ 404)
    (h403 : ¬(resp.statusCode = 403 ∧ headerGet resp.headers "X-RateLimit-Remaining" = "0")) :
    classifyResponse fmtLocal resp =
      ClassifyResult.fail ("github api error: " ++ resp.status ++ ": " ++
        goTrimSpace (bodyTake 512 resp.body)) ∧
    (goTrimSpace (bodyTake 512 resp.body)).length ≤ 512 := by
  refine ⟨?_, goTrimSpace_bodyTake_le 512 resp.body⟩
  unfold classifyResponse
  rw [if_neg h404, if_neg h403, if_pos hnon2xx]

/-- A concrete 502 response used to instantiate `classify_generic_api_error`. -/
def badGatewayResponse : HttpResponse :=
  { statusCode := 502, status := "502 Bad Gateway", headers := [], body := "bad gateway\n" }

/-- Witness: `classify_generic_api_error` applied to a concrete 502. -/
theorem classify_generic_api_error_witness :
    classifyResponse (fun ts => toString ts) badGatewayResponse =
      ClassifyResult.fail ("github api error: " ++ badGatewayResponse.status ++ ": " ++
        goTrimSpace (bodyTake 512 badGatewayResponse.body)) ∧
    (goTrimSpace (bodyTake 512 badGatewayResponse.body)).length ≤ 512 :=
  classify_generic_api_error (fun ts => toString ts) badGatewayResponse
    (Or.inr (by decide)) (by decide) (by decide)

/-- C2 (amended): a 403 with an exhausted quota header always fails with
a message extending the rate-limit text; the message carries the
resets-at annotation when the reset header parses as a decimal 64-bit
integer whose instant is not Go's zero time, and is exactly the bare
rate-limit text when the header fails to parse or parses to the zero
time's Unix seconds. -/
theorem classify_rate_limited (fmtLocal : Int → String) (resp : HttpResponse)
    (h403 : resp.statusCode = 403)
    (hrl : headerGet resp.headers "X-RateLimit-Remaining" = "0") :
    (∃ suffix, classifyResponse fmtLocal resp =
        ClassifyResult.fail (rateLimitBase ++ suffix)) ∧
    (∀ ts : Int, parseUnix (headerGet resp.headers "X-RateLimit-Reset") = some ts →
        ts ≠ zeroTimeUnixSec →
        classifyResponse fmtLocal resp =
          ClassifyResult.fail (rateLimitBase ++ " (resets at " ++ fmtLocal ts ++ ")")) ∧
    (parseUnix (headerGet resp.headers "X-RateLimit-Reset") = none ∨
        parseUnix (headerGet resp.headers "X-RateLimit-Reset") = some zeroTimeUnixSec →
        classifyResponse fmtLocal resp = ClassifyResult.fail rateLimitBase) := by
  have h404 : ¬ resp.statusCode = 404 := by omega
  have hand : resp.statusCode = 403 ∧ headerGet resp.headers "X-RateLimit-Remaining" = "0" :=
    ⟨h403, hrl⟩
  refine ⟨?_, ?_, ?_⟩
  · unfold classifyResponse
    rw [if_neg h404, if_pos hand]
    dsimp only
    by_cases hne : headerGet resp.headers "X-RateLimit-Reset" ≠ ""
    · rw [if_pos hne]
      cases hparse : parseUnix (headerGet resp.headers "X-RateLimit-Reset") with
      | none => exact ⟨"", by rw [String.append_empty]⟩
      | some ts =>
        dsimp only
        by_cases hz : ts ≠ zeroTimeUnixSec
        · rw [if_pos hz]
          exact ⟨" (resets at " ++ (fmtLocal ts ++ ")"),
            by rw [String.append_assoc, String.append_assoc]⟩
        · rw [if_neg hz]
          exact ⟨"", by rw [String.append_empty]⟩
    · rw [if_neg hne]
      exact ⟨"", by rw [String.append_empty]⟩
  · intro ts hts hz
    have hne : headerGet resp.headers "X-RateLimit-Reset" ≠ "" := by
      intro h
      rw [h, show parseUnix "" = none from rfl] at hts
      cases hts
    unfold classifyResponse
    rw [if_neg h404, if_pos hand]
    dsimp only
    rw [if_pos hne, hts]
    dsimp only
    rw [if_pos hz]
  · intro hcase
    unfold classifyResponse
    rw [if_neg h404, if_pos hand]
    dsimp only
    by_cases hne : headerGet resp.headers "X-RateLimit-Reset" ≠ ""
    · rw [if_pos hne]
      rcases hcase with hnone | hzero
      · rw [hnone]
      · rw [hzero]
        dsimp only
        rw [if_neg (fun h => h rfl)]
    · rw [if_neg hne]

/-- A 403 response whose reset header is the Unix second of Go's zero
time: it parses as a decimal integer, yet the code's `IsZero` guard
suppresses the annotation. -/
def rateLimitedZeroResetResponse : HttpResponse :=
  { statusCode := 403, status := "403 Forbidden",
    headers := [("X-RateLimit-Remaining", "0"), ("X-RateLimit-Reset", "-62135596800")],
    body := "" }

/-- A 403 response with an ordinary reset header. -/
def rateLimitedResponse : HttpResponse :=
  { statusCode := 403, status := "403 Forbidden",
    headers := [("X-RateLimit-Remaining", "0"), ("X-RateLimit-Reset", "1710000000")],
    body := "" }

/-- Naive substring test used to state the absence of an annotation. -/
def strContains (s pat : String) : Bool :=
  (List.range (s.data.length + 1)).any (fun i => List.isPrefixOf pat.data (s.data.drop i))

/-- C2 (counterexample): the reset header `-62135596800` is present and
parses as a decimal integer, yet the failure message is the bare
rate-limit text with no resets-at annotation. -/
theorem classify_rate_limited_zero_reset :
    (parseUnix "-62135596800").isSome = true ∧
    classifyResponse (fun ts => toString ts) rateLimitedZeroResetResponse =
      ClassifyResult.fail rateLimitBase ∧
    strContains rateLimitBase "resets at" = false := by
  refine ⟨?_, ?_, ?_⟩ <;> decide

/-- Witness: `classify_rate_limited` at concrete annotated and
unannotated responses. -/
theorem classify_rate_limited_witness :
    classifyResponse (fun ts => toString ts) rateLimitedResponse =
      ClassifyResult.fail (rateLimitBase ++ " (resets at " ++
        toString (1710000000 : Int) ++ ")") ∧
    classifyResponse (fun ts => toString ts) rateLimitedZeroResetResponse =
      ClassifyResult.fail rateLimitBase :=
  ⟨(classify_rate_limited (fun ts => toString ts) rateLimitedResponse rfl rfl).2.1
      1710000000 (by decide) (by decide),
    (classify_rate_limited (fun ts => toString ts) rateLimitedZeroResetResponse rfl rfl).2.2
      (Or.inr (by decide))⟩

/-- C5's sample issues event. -/
def issuesSampleEvent : Event :=
  { type := "IssuesEvent", repoName := "alice/repo",
    payload := some (Json.obj [("action", Json.str "opened"),
      ("issue", Json.obj [("number", Json.num 42), ("title", Json.str "Bug")])]) }

/-- C5 (counterexample): the issues line does not enclose the title in
ASCII double quotes. -/
theorem formatEvent_issues_not_ascii_quotes :
    formatEvent issuesSampleEvent ≠ ("Opened an issue #42 \"Bug\" in alice/repo", true) := by
  decide

/-- C5 (amended): the issues line encloses the title in typographic
double quotes (U+201C and U+201D), with the action title-cased, the
issue number after `#` and the repository name at the end. -/
theorem formatEvent_issues_typographic_quotes :
    formatEvent issuesSampleEvent = ("Opened an issue #42 “Bug” in alice/repo", true) := by
  decide

/-- C6: `titleCase` maps the empty string to itself and otherwise
uppercases the first character and lowercases the remainder. -/
theorem titleCase_spec :
    titleCase "" = "" ∧ titleCase "CLOSED" = "Closed" ∧
    ∀ (c : Char) (cs : List Char),
      titleCase (String.mk (c :: cs)) = String.mk (Char.toUpper c :: cs.map Char.toLower) :=
  ⟨rfl, by decide, fun _ _ => rfl⟩

/-- C7: for the five tags whose payload fields matter, a payload that
fails to unmarshal makes `formatEvent` skip the event with `("", false)`
— a local outcome, never a program-level failure. -/
theorem formatEvent_malformed_skips (ev : Event)
    (h : (ev.type = "PushEvent" ∧ decodePush ev.payload = none) ∨
         (ev.type = "IssuesEvent" ∧ decodeIssues ev.payload = none) ∨
         (ev.type = "PullRequestEvent" ∧ decodePR ev.payload = none) ∨
         (ev.type = "WatchEvent" ∧ decodeWatch ev.payload = none) ∨
         (ev.type = "ForkEvent" ∧ decodeFork ev.payload = none)) :
    formatEvent ev = ("", false) := by
  rcases h with ⟨ht, hd⟩ | ⟨ht, hd⟩ | ⟨ht, hd⟩ | ⟨ht, hd⟩ | ⟨ht, hd⟩ <;>
    simp [formatEvent, ht, hd]

/-- Witness: a `PushEvent` whose payload is a JSON string cannot
unmarshal into `PushPayload` and is skipped. -/
theorem formatEvent_malformed_skips_witness :
    formatEvent { type := "PushEvent", repoName := "alice/repo",
                  payload := some (Json.str "oops") } = ("", false) :=
  formatEvent_malformed_skips _ (Or.inl ⟨rfl, rfl⟩)

/-- C8: on an empty decoded sequence `main` prints the distinct
no-recent-activity message before the loop; on a non-empty sequence with
zero printed lines it prints the filter-specific or generic message; all
three paths exit 0. -/
theorem runMain_informational (filter : String) (n : Int) (evs : List Event) :
    (evs = [] → runMain filter n evs = (["No recent public activity."], 0)) ∧
    (evs ≠ [] → printedLines filter n evs = [] → filter ≠ "" →
      runMain filter n evs = (["No events of type " ++ goQuote filter ++ " found."], 0)) ∧
    (evs ≠ [] → printedLines filter n evs = [] → filter = "" →
      runMain filter n evs = (["No printable events found."], 0)) := by
  refine ⟨?_, ?_, ?_⟩
  · intro h
    subst h
    rfl
  · intro hne hpr hfil
    have hlen : ¬ evs.length = 0 := by simpa using hne
    rw [printedLines] at hpr
    simp [runMain, hlen, hpr, hfil]
  · intro hne hpr hfil
    subst hfil
    have hlen : ¬ evs.length = 0 := by simpa using hne
    rw [printedLines] at hpr
    simp [runMain, hlen, hpr]

/-- Witness: `runMain_informational` at an empty feed, a filtered feed
with no matching events, and an unfiltered feed with no printable
events. -/
theorem runMain_informational_witness :
    runMain "" 30 ([] : List Event) = (["No recent public activity."], 0) ∧
    runMain "PushEvent" 30
        [{ type := "WatchEvent", repoName := "r", payload := some (Json.obj []) }] =
      (["No events of type " ++ goQuote "PushEvent" ++ " found."], 0) ∧
    runMain "" 30 [{ type := "MysteryEvent", repoName := "r", payload := none }] =
      (["No printable events found."], 0) :=
  ⟨(runMain_informational "" 30 []).1 rfl,
    (runMain_informational "PushEvent" 30 _).2.1 (by simp) (by decide) (by decide),
    (runMain_informational "" 30 _).2.2 (by simp) (by decide) rfl⟩

/-- C9: the fork line points from the repository to the forkee's full
name, substituting the repository itself when the forkee is absent or
empty. -/
theorem formatEvent_fork_cases :
    formatEvent { type := "ForkEvent", repoName := "alice/repo",
                  payload := some (Json.obj [("forkee",
                    Json.obj [("full_name", Json.str "bob/repo-fork")])]) } =
      ("Forked alice/repo → bob/repo-fork", true) ∧
    formatEvent { type := "ForkEvent", repoName := "alice/repo",
                  payload := some (Json.obj []) } =
      ("Forked alice/repo → alice/repo", true) ∧
    formatEvent { type := "ForkEvent", repoName := "alice/repo",
                  payload := some (Json.obj [("forkee",
                    Json.obj [("full_name", Json.str "")])]) } =
      ("Forked alice/repo → alice/repo", true) := by
  refine ⟨?_, ?_, ?_⟩ <;> decide

/-- C10: the five payload-free tags format from the repository name
alone; the payload — even an absent or invalid one — is never decoded,
so it cannot cause the event to be skipped. -/
theorem formatEvent_payload_free (repo : String) (p : Option Json) :
    formatEvent { type := "CreateEvent", repoName := repo, payload := p } =
      ("Created something in " ++ repo, true) ∧
    formatEvent { type := "DeleteEvent", repoName := repo, payload := p } =
      ("Deleted something in " ++ repo, true) ∧
    formatEvent { type := "ReleaseEvent", repoName := repo, payload := p } =
      ("Published or edited a release in " ++ repo, true) ∧
    formatEvent { type := "PullRequestReviewCommentEvent", repoName := repo, payload := p } =
      ("Commented on a PR review in " ++ repo, true) ∧
    formatEvent { type := "IssueCommentEvent", repoName := repo, payload := p } =
      ("Commented on an issue in " ++ repo, true) :=
  ⟨rfl, rfl, rfl, rfl, rfl⟩

end GhActivity
